import Mathlib

/-!
# Verification of the `matephis-plot` plotting engine

Shallow embedding of the core numeric routines of `src/js/matephis-plot.js`
(coordinate transform, wheel/pinch zoom view updates, adaptive curve sampler,
marching-squares implicit contour extractor, expression rewriter `_makeFn`,
draw-pass orchestration, point-to-segment projection), together with theorems
checking the natural-language specification against that embedding.

Machine floats are modelled by exact rationals (`ℚ`) or reals (`ℝ`): the
claims under check are algebraic identities, branch structure and threshold
comparisons, none of which depend on rounding.
-/

set_option allowUnsafeReducibility true in
attribute [semireducible] Rat.add Rat.sub Rat.mul Rat.inv Rat.div Rat.neg

namespace Plotter

/-! ## Coordinate transform (src/js/matephis-plot.js lines 1851–1861)

`draw()` builds the forward maps
`mapX = (x) => padding + ((x - xMin) / (xMax - xMin)) * (width - 2*padding)`
`mapY = (y) => height - padding - ((y - yMin) / (yMax - yMin)) * (height - 2*padding)`
and stores the inverse maps `unmapX`, `unmapY` on `this.transform`. -/

structure Transform where
  xMin : ℚ
  xMax : ℚ
  yMin : ℚ
  yMax : ℚ
  width : ℚ
  height : ℚ
  padding : ℚ

/-- `mapX` from `draw()`: data-space x to screen-space x. -/
def mapX (T : Transform) (x : ℚ) : ℚ :=
  T.padding + ((x - T.xMin) / (T.xMax - T.xMin)) * (T.width - 2 * T.padding)

/-- `mapY` from `draw()`: data-space y to screen-space y, inverted and anchored
at canvas height. -/
def mapY (T : Transform) (y : ℚ) : ℚ :=
  T.height - T.padding - ((y - T.yMin) / (T.yMax - T.yMin)) * (T.height - 2 * T.padding)

/-- `unmapX` from `this.transform`: screen-space x back to data-space x. -/
def unmapX (T : Transform) (px : ℚ) : ℚ :=
  T.xMin + ((px - T.padding) / (T.width - 2 * T.padding)) * (T.xMax - T.xMin)

/-- `unmapY` from `this.transform`: screen-space y back to data-space y. -/
def unmapY (T : Transform) (py : ℚ) : ℚ :=
  T.yMin + ((T.height - T.padding - py) / (T.height - 2 * T.padding)) * (T.yMax - T.yMin)

/-! ## Wheel zoom (src/js/matephis-plot.js lines 1446–1518)

With `constrainView` off, `svg.onwheel` computes
`mouseX = unmapX(mx)`, `viewW = xMax - xMin`, `newW = viewW * zoomFactor`,
`xFrac = (mouseX - xMin) / viewW`, `newXMin = mouseX - xFrac * newW`,
`newXMax = newXMin + newW` (and the same for y), then sets `this.view`. -/

structure View where
  xMin : ℚ
  xMax : ℚ
  yMin : ℚ
  yMax : ℚ

/-- View produced by the wheel-zoom handler (clamped `constrainView` mode off). -/
def wheelZoomView (T : Transform) (mx my zoomFactor : ℚ) : View :=
  let mouseX := unmapX T mx
  let mouseY := unmapY T my
  let viewW := T.xMax - T.xMin
  let viewH := T.yMax - T.yMin
  let newW := viewW * zoomFactor
  let newH := viewH * zoomFactor
  let xFrac := (mouseX - T.xMin) / viewW
  let yFrac := (mouseY - T.yMin) / viewH
  let newXMin := mouseX - xFrac * newW
  let newXMax := newXMin + newW
  let newYMin := mouseY - yFrac * newH
  let newYMax := newYMin + newH
  ⟨newXMin, newXMax, newYMin, newYMax⟩

/-! ## Pinch zoom (src/js/matephis-plot.js lines 1569–1647)

With `constrainView` off and two or more touches, `handleTouchMove` computes
`scale = touchStartDist / currentDist`, `newW = touchStartView.width * scale`,
`cx = (xMin + xMax) / 2`, and sets the view to `cx - newW/2 .. cx + newW/2`
(and likewise for y): the rescale is anchored at the view centre.  The pan
deltas `dxGraph`/`dyGraph` are computed but never added to the new bounds. -/

/-- View produced by the pinch-zoom branch of `handleTouchMove`
(clamped `constrainView` mode off), given the view snapshot taken at touch
start and the scale ratio `touchStartDist / currentDist`. -/
def pinchZoomView (start : View) (scale : ℚ) : View :=
  let w := start.xMax - start.xMin
  let h := start.yMax - start.yMin
  let newW := w * scale
  let newH := h * scale
  let cx := (start.xMin + start.xMax) / 2
  let cy := (start.yMin + start.yMax) / 2
  ⟨cx - newW / 2, cx + newW / 2, cy - newH / 2, cy + newH / 2⟩

/-- The transform the next `draw()` derives from a view (same canvas geometry). -/
def transformOfView (v : View) (width height padding : ℚ) : Transform :=
  ⟨v.xMin, v.xMax, v.yMin, v.yMax, width, height, padding⟩

/-! ## Adaptive curve sampler (src/js/matephis-plot.js lines 2476–2644)

The function branch of `draw()` samples `y = f(x)` with a recursive bisection
`plotSegment` (max depth `MAX_DEPTH = 8`, curvature tolerance
`TOLERANCE = 0.2`).  A compiled function is modelled as `ℚ → Option ℚ`:
`none` stands for a sample that threw or came back non-finite (`NaN`,
`±Infinity`), which the source treats identically via `isValid`. -/

def MAX_DEPTH : Nat := 8

/-- `TOLERANCE = 0.2` from the source. -/
def TOLERANCE : ℚ := 1 / 5

/-- `safeMapY`: `mapY` clamped to `[-10000, 10000]`. -/
def safeMapY (T : Transform) (y : ℚ) : ℚ :=
  let py := mapY T y
  if py < -10000 then -10000 else if py > 10000 then 10000 else py

/-- Pixel y of a sample; the pixel of an invalid (`none`) sample is never
consulted by any branch the source takes, so any placeholder serves. -/
def pixY (T : Transform) (y : Option ℚ) : ℚ :=
  match y with
  | some v => safeMapY T v
  | none => 0

/-- `isValid(x, y)` from the source: `y` finite and `x` inside the optional
domain restriction. -/
def isValid (domain : Option (ℚ × ℚ)) (x : ℚ) (y : Option ℚ) : Bool :=
  match y with
  | none => false
  | some _ =>
    match domain with
    | some (d0, d1) => !(decide (x < d0) || decide (x > d1))
    | none => true

/-- State threaded through `plotSegment`: the `started` path flag and the
pixel-space segments pushed so far (for the plain, non-derivative task each
`L` draw also pushes the segment to `this.plotData`). -/
structure SamplerState where
  started : Bool
  segs : List (ℚ × ℚ × ℚ × ℚ)
deriving DecidableEq, Repr

/-- The recursion criteria of `plotSegment` (source lines 2511–2535): split
when validity differs, when a valid pair surrounds an invalid midpoint, when
all three samples are valid but the midpoint strays from the chord by more
than `TOLERANCE` or the endpoint pixel jump exceeds the canvas height, or
when both endpoints are invalid but the midpoint is valid. -/
def splitDecision (v1 v2 vm : Bool) (p1Y p2Y pmY height : ℚ) : Bool :=
  if v1 != v2 then true
  else if v1 && v2 && !vm then true
  else if v1 && v2 && vm then
    decide (|pmY - (p1Y + (p2Y - p1Y) * (1 / 2))| > TOLERANCE)
      || decide (|p2Y - p1Y| > height)
  else if !v1 && !v2 && vm then true
  else false

/-- The recursion criteria as the specification words them (claim C7): the
same list of cases minus the both-endpoints-invalid-midpoint-valid case. -/
def specSplitCriteria (v1 v2 vm : Bool) (p1Y p2Y pmY height : ℚ) : Bool :=
  (v1 != v2) || (v1 && v2 && !vm)
    || (v1 && v2 && vm &&
        (decide (|pmY - (p1Y + (p2Y - p1Y) * (1 / 2))| > TOLERANCE)
          || decide (|p2Y - p1Y| > height)))

/-- The base case of `plotSegment` (source lines 2544–2583).  Case 1 draws
whenever both endpoints are valid and the pixel jump is under `100`; the
source's "Case 2" (`else if (v1 && v2 && !vm)`, bridge threshold `50`) is kept
verbatim, although its guard is subsumed by Case 1's. -/
def emitBase (p1X p1Y p2X p2Y : ℚ) (v1 v2 vm : Bool) (st : SamplerState) : SamplerState :=
  if v1 && v2 then
    let jump := |p2Y - p1Y|
    if jump < 100 then
      { started := true, segs := st.segs ++ [(p1X, p1Y, p2X, p2Y)] }
    else
      { st with started := false }
  else if v1 && v2 && !vm then
    let jump := |p2Y - p1Y|
    if jump < 50 then
      { started := true, segs := st.segs ++ [(p1X, p1Y, p2X, p2Y)] }
    else
      { st with started := false }
  else
    { st with started := false }

/-- `plotSegment(x1, y1, x2, y2, depth)` from the source: evaluate the
midpoint, recurse on both halves while `depth < MAX_DEPTH` and the recursion
criteria fire, otherwise run the base-case emission. -/
def plotSegment (f : ℚ → Option ℚ) (domain : Option (ℚ × ℚ)) (T : Transform)
    (x1 : ℚ) (y1 : Option ℚ) (x2 : ℚ) (y2 : Option ℚ)
    (depth : Nat) (st : SamplerState) : SamplerState :=
  let xm := (x1 + x2) / 2
  let ym := f xm
  let p1X := mapX T x1
  let p1Y := pixY T y1
  let p2X := mapX T x2
  let p2Y := pixY T y2
  let pmY := pixY T ym
  let v1 := isValid domain x1 y1
  let v2 := isValid domain x2 y2
  let vm := isValid domain xm ym
  if h : depth < MAX_DEPTH then
    if splitDecision v1 v2 vm p1Y p2Y pmY T.height then
      let st' := plotSegment f domain T x1 y1 xm ym (depth + 1) st
      plotSegment f domain T xm ym x2 y2 (depth + 1) st'
    else
      emitBase p1X p1Y p2X p2Y v1 v2 vm st
  else
    emitBase p1X p1Y p2X p2Y v1 v2 vm st
termination_by MAX_DEPTH - depth
decreasing_by
  · omega
  · omega

/-! ## Point-to-segment projection (src/js/matephis-plot.js lines 799–807)

`_projectPointOnSegment(px, py, x1, y1, x2, y2)` guards the zero-length
segment, clamps the projection parameter to `[0, 1]` and returns the foot
point together with its `Math.hypot` distance from the query point.  Modelled
over `ℝ` because of the square root. -/

structure ProjResult where
  x : ℝ
  y : ℝ
  dist : ℝ

/-- `_projectPointOnSegment` from the source. -/
noncomputable def projectPointOnSegment (px py x1 y1 x2 y2 : ℝ) : ProjResult :=
  let l2 := (x2 - x1) ^ 2 + (y2 - y1) ^ 2
  if l2 = 0 then
    ⟨x1, y1, Real.sqrt ((px - x1) ^ 2 + (py - y1) ^ 2)⟩
  else
    let t0 := ((px - x1) * (x2 - x1) + (py - y1) * (y2 - y1)) / l2
    let t := max 0 (min 1 t0)
    let projX := x1 + t * (x2 - x1)
    let projY := y1 + t * (y2 - y1)
    ⟨projX, projY, Real.sqrt ((px - projX) ^ 2 + (py - projY) ^ 2)⟩

/-! ## Implicit contour extractor (src/js/matephis-plot.js lines 2662–2703)

Marching squares over a fixed `60×60` cell grid: corner values
`v0 = grid[i][j]`, `v1 = grid[i+1][j]`, `v2 = grid[i+1][j+1]`,
`v3 = grid[i][j+1]`, a 4-bit code with a bit set per corner value `> 0`,
edge interpolation `lerp(v0, v1) = |v0| / (|v0| + |v1|)`, and the fixed
16-case segment lookup of the `switch`. -/

/-- `lerp` from the implicit block of `draw()`. -/
def lerp (v0 v1 : ℚ) : ℚ := |v0| / (|v0| + |v1|)

/-- The 4-bit corner sign code `c` (`c |= 1,2,4,8` for `v0,v1,v2,v3 > 0`). -/
def cellCode (v0 v1 v2 v3 : ℚ) : Nat :=
  (if v0 > 0 then 1 else 0) ||| (if v1 > 0 then 2 else 0)
    ||| (if v2 > 0 then 4 else 0) ||| (if v3 > 0 then 8 else 0)

/-- The data-space segments one cell emits: the `continue` for codes 0/15 and
the 16-case `switch` of the source (cases 5 and 10 emit two segments). -/
def cellSegs (v0 v1 v2 v3 xl yb dx dy : ℚ) : List ((ℚ × ℚ) × (ℚ × ℚ)) :=
  let c := cellCode v0 v1 v2 v3
  let xr := xl + dx
  let yt := yb + dy
  let pB := (xl + dx * lerp v0 v1, yb)
  let pR := (xr, yb + dy * lerp v1 v2)
  let pT := (xl + dx * lerp v3 v2, yt)
  let pL := (xl, yb + dy * lerp v0 v3)
  if c = 0 ∨ c = 15 then []
  else if c = 1 ∨ c = 14 then [(pL, pB)]
  else if c = 2 ∨ c = 13 then [(pB, pR)]
  else if c = 3 ∨ c = 12 then [(pL, pR)]
  else if c = 4 ∨ c = 11 then [(pT, pR)]
  else if c = 5 then [(pL, pT), (pB, pR)]
  else if c = 6 ∨ c = 9 then [(pB, pT)]
  else if c = 7 ∨ c = 8 then [(pL, pT)]
  else if c = 10 then [(pL, pB), (pT, pR)]
  else []

/-- The whole extraction: grid values `f(xMin + i*dx, yMin + j*dy)` with
`dx = (xMax - xMin)/res`, one `cellSegs` per cell, in source loop order. -/
def marchingSquares (f : ℚ → ℚ → ℚ) (xMin xMax yMin yMax : ℚ) (res : Nat) :
    List ((ℚ × ℚ) × (ℚ × ℚ)) :=
  let dx := (xMax - xMin) / res
  let dy := (yMax - yMin) / res
  (List.range res).flatMap fun i =>
    (List.range res).flatMap fun j =>
      cellSegs (f (xMin + i * dx) (yMin + j * dy))
        (f (xMin + (i + 1) * dx) (yMin + j * dy))
        (f (xMin + (i + 1) * dx) (yMin + (j + 1) * dy))
        (f (xMin + i * dx) (yMin + (j + 1) * dy))
        (xMin + i * dx) (yMin + j * dy) dx dy

/-- A point whose distance from the origin is within `1/100` of `5`
(stated on squared distances). -/
def nearRadius5 (p : ℚ × ℚ) : Bool :=
  decide ((499 / 100 : ℚ) ^ 2 ≤ p.1 ^ 2 + p.2 ^ 2)
    && decide (p.1 ^ 2 + p.2 ^ 2 ≤ (501 / 100 : ℚ) ^ 2)

/-- The contour of `x^2 + y^2 = 25` (zero-crossing form `x^2 + y^2 - 25`)
on the view `[-10,10]×[-10,10]` at the fixed resolution `60`. -/
def circleSegs : List ((ℚ × ℚ) × (ℚ × ℚ)) :=
  marchingSquares (fun x y => x ^ 2 + y ^ 2 - 25) (-10) 10 (-10) 10 60

/-- Every endpoint of every emitted circle segment is within `1/100` of
radius `5`. -/
def circleCheck : Bool := circleSegs.all fun s => nearRadius5 s.1 && nearRadius5 s.2

/-! ## Expression rewriter `_makeFn` (src/js/matephis-plot.js lines 1744–1781)

`_makeFn` rewrites an expression string through an ordered pipeline:
parameter-adjacency implicit multiplication (regex
`(?<![a-zA-Z0-9])(key)(?=[xyt\\(])` → `$1*`), parameter value substitution
(`\\bkey\\b` → `(value)`), digit/paren implicit multiplication, the negative
power fix, `^` → `**`, math-name translation (`sin` → `Math.sin`, `pi`/`e` →
constants), and finally equation normalization
(`lhs = rhs` → `(lhs) - (rhs)` on the first two `split("=")` parts).
Strings are modelled as `List Char`; each regex global replace is a
left-to-right scan that consumes its match and keeps one flag of lookbehind
state (the character class of the previous input character), with an input
length fuel (each step consumes at least one input character). -/

def isAlnumCh (c : Char) : Bool := c.isAlpha || c.isDigit

def isWordCh (c : Char) : Bool := c.isAlpha || c.isDigit || c = '_'

def matchesKey (k l : List Char) : Bool := decide (l.take k.length = k)

def lookaheadVarCh (k l : List Char) : Bool :=
  let c := (l.drop k.length).headD ' '
  c = 'x' || c = 'y' || c = 't' || c = '('

def boundaryAfter (k l : List Char) : Bool := !isWordCh ((l.drop k.length).headD ' ')

def paramAdjStep (k : List Char) : Nat → Bool → List Char → List Char
  | 0, _, l => l
  | _ + 1, _, [] => []
  | fuel + 1, prevAl, c :: rest =>
    if !prevAl && k ≠ [] && matchesKey k (c :: rest) && lookaheadVarCh k (c :: rest) then
      k ++ '*' :: paramAdjStep k fuel (isAlnumCh (k.getLastD ' ')) ((c :: rest).drop k.length)
    else
      c :: paramAdjStep k fuel (isAlnumCh c) rest

def substStep (k v : List Char) : Nat → Bool → List Char → List Char
  | 0, _, l => l
  | _ + 1, _, [] => []
  | fuel + 1, prevW, c :: rest =>
    if !prevW && k ≠ [] && matchesKey k (c :: rest) && boundaryAfter k (c :: rest) then
      '(' :: v ++ ')' :: substStep k v fuel (isWordCh (k.getLastD ' ')) ((c :: rest).drop k.length)
    else
      c :: substStep k v fuel (isWordCh c) rest

def paramImplicitMult (params : List (List Char × List Char)) (s : List Char) : List Char :=
  params.foldl (fun acc kv => paramAdjStep kv.1 acc.length false acc) s

def substParams (params : List (List Char × List Char)) (s : List Char) : List Char :=
  params.foldl (fun acc kv => substStep kv.1 kv.2 acc.length false acc) s

def digitMult : List Char → List Char
  | a :: b :: rest =>
    if a.isDigit && (b.isAlpha || b = '(') then a :: '*' :: b :: digitMult rest
    else a :: digitMult (b :: rest)
  | l => l

def parenMult : List Char → List Char
  | a :: b :: rest =>
    if a = ')' && (b.isAlpha || b.isDigit || b = '(') then a :: '*' :: b :: parenMult rest
    else a :: parenMult (b :: rest)
  | l => l

def negPowAux : Nat → List Char → List Char
  | 0, l => l
  | _ + 1, [] => []
  | fuel + 1, p :: rest =>
    if !isAlnumCh p then
      match rest with
      | '-' :: c :: '^' :: rest2 =>
        if c.isLower && (rest2.headD ' ').isDigit then
          let ds := rest2.takeWhile Char.isDigit
          p :: '-' :: '(' :: c :: '^' :: (ds ++ ')' :: negPowAux fuel (rest2.dropWhile Char.isDigit))
        else p :: negPowAux fuel rest
      | _ => p :: negPowAux fuel rest
    else p :: negPowAux fuel rest

def negPow (l : List Char) : List Char :=
  match l with
  | '-' :: c :: '^' :: rest =>
    if c.isLower && (rest.headD ' ').isDigit then
      let ds := rest.takeWhile Char.isDigit
      '-' :: '(' :: c :: '^' :: (ds ++ ')' :: negPowAux (rest.dropWhile Char.isDigit).length (rest.dropWhile Char.isDigit))
    else negPowAux l.length l
  | _ => negPowAux l.length l

def caretExpand : List Char → List Char
  | [] => []
  | '^' :: rest => '*' :: '*' :: caretExpand rest
  | c :: rest => c :: caretExpand rest

def replaceWordsAux (table : List (List Char × List Char)) : Nat → Bool → List Char → List Char
  | 0, _, l => l
  | _ + 1, _, [] => []
  | fuel + 1, prevW, c :: rest =>
    if !prevW then
      match table.find? (fun kv =>
          kv.1 ≠ [] && matchesKey kv.1 (c :: rest) && boundaryAfter kv.1 (c :: rest)) with
      | some kv =>
        kv.2 ++ replaceWordsAux table fuel (isWordCh (kv.1.getLastD ' ')) ((c :: rest).drop kv.1.length)
      | none => c :: replaceWordsAux table fuel (isWordCh c) rest
    else c :: replaceWordsAux table fuel (isWordCh c) rest

def replaceWords (table : List (List Char × List Char)) (s : List Char) : List Char :=
  replaceWordsAux table s.length false s

def mathFnTable : List (List Char × List Char) :=
  ["sin", "cos", "tan", "asin", "acos", "atan", "sqrt", "log", "exp",
   "abs", "floor", "ceil", "round"].map
    fun n => (n.toList, ("Math." ++ n).toList)

def piTable : List (List Char × List Char) :=
  [("pi".toList, "Math.PI".toList), ("PI".toList, "Math.PI".toList)]

def eTable : List (List Char × List Char) :=
  [("e".toList, "Math.E".toList), ("E".toList, "Math.E".toList)]

def takeUntilEq : List Char → List Char
  | [] => []
  | c :: rest => if c = '=' then [] else c :: takeUntilEq rest

def dropPastEq : List Char → Option (List Char)
  | [] => none
  | c :: rest => if c = '=' then some rest else dropPastEq rest

def eqNormalize (l : List Char) : List Char :=
  match dropPastEq l with
  | none => l
  | some rest =>
    '(' :: takeUntilEq l ++ ')' :: ' ' :: '-' :: ' ' :: '(' :: (takeUntilEq rest ++ [')'])

def makeFn (params : List (List Char × List Char)) (s : List Char) : List Char :=
  eqNormalize (replaceWords eTable (replaceWords piTable (replaceWords mathFnTable
    (caretExpand (negPow (parenMult (digitMult
      (substParams params (paramImplicitMult params s)))))))))

/-! ## Draw-pass orchestration (src/js/matephis-plot.js lines 1801–1836,
2306–2712, 3175–3179)

`draw()` clears every dynamic group and resets `this.plotData = []` before
rebuilding the scene from the configuration and the resolved view bounds;
`_addWarning` appends a message only when it is not already present, and
`this.warnings` is never cleared between draws.  The scene builder itself is
deterministic in the configuration and resolved bounds, so it is modelled as
an explicit function argument producing the scene, the geometry cache and the
warning messages of one pass. -/

/-- `_addWarning` (source lines 3175–3179). -/
def addWarning (warnings : List String) (msg : String) : List String :=
  if msg ∈ warnings then warnings else warnings ++ [msg]

/-- The configuration bounds consulted by `draw()` (defaults `±9.9`). -/
structure Config where
  xlim : Option (ℚ × ℚ)
  ylim : Option (ℚ × ℚ)

/-- Bound resolution at the top of `draw()`: an active view overrides the
configuration limits; otherwise the limits (or the `±9.9` defaults) apply and
seed the view. -/
def resolveBounds (cfg : Config) (view : Option View) : View :=
  match view with
  | some v => v
  | none =>
    ⟨(cfg.xlim.getD (-99/10, 99/10)).1, (cfg.xlim.getD (-99/10, 99/10)).2,
     (cfg.ylim.getD (-99/10, 99/10)).1, (cfg.ylim.getD (-99/10, 99/10)).2⟩

/-- What one scene rebuild produces: scene primitives, hit-test cache entries,
and the warning messages raised during the pass. -/
structure RenderOut (α : Type) where
  scene : List α
  cache : List α
  msgs : List String

/-- The mutable engine state a draw reads and writes. -/
structure DrawState (α : Type) where
  scene : List α
  plotData : List α
  view : Option View
  warnings : List String

/-- One `draw()` pass: resolve bounds, clear the groups and the geometry
cache, rebuild both from the renderer's output, seed the view, and fold the
pass's messages through `_addWarning` (the warning list is never cleared). -/
def drawPass {α : Type} (cfg : Config) (render : Config → View → RenderOut α)
    (s : DrawState α) : DrawState α :=
  let v := resolveBounds cfg s.view
  let r := render cfg v
  ⟨r.scene, r.cache, some v, r.msgs.foldl addWarning s.warnings⟩

/-- The per-item loop of `draw()` (source lines 2306–2712), abstracted to the
error-handling skeleton: a data item is a function item, an interpolation
item or an implicit item, each tagged with whether compiling/evaluating its
expression succeeds.  Function tasks sit in a `try`/`catch` that surfaces a
warning (line 2655); the interpolation block sits in a `try`/`catch` that
only `console.warn`s (line 2407); the implicit block (lines 2662–2712) has no
`try` at all, so a throw escapes the `forEach`. -/
inductive DataItem where
  | fnItem (ok : Bool)
  | interpItem (ok : Bool)
  | implicitItem (ok : Bool)
deriving DecidableEq, Repr

/-- Runs the item loop, returning which items rendered and the warning list,
or the uncaught exception that aborted the whole draw. -/
def drawItems : List DataItem → List Bool → List String →
    Except String (List Bool × List String)
  | [], rendered, warnings => .ok (rendered, warnings)
  | .fnItem ok :: rest, rendered, warnings =>
    if ok then drawItems rest (rendered ++ [true]) warnings
    else drawItems rest (rendered ++ [false]) (addWarning warnings "Error rendering function")
  | .interpItem ok :: rest, rendered, warnings =>
    if ok then drawItems rest (rendered ++ [true]) warnings
    else drawItems rest (rendered ++ [false]) warnings
  | .implicitItem ok :: rest, rendered, warnings =>
    if ok then drawItems rest (rendered ++ [true]) warnings
    else .error "SyntaxError"

/-! ## Theorems -/

/-- C1: for every view rectangle with `xMax > xMin` and `yMax > yMin` and every
screen point strictly inside the padded canvas rectangle, inverse-then-forward
returns the same screen point (exactly, in the rational model); the forward map
is `padding + (dataX - xMin)/(xMax - xMin) * (width - 2*padding)`, `mapY` the
inverted formula anchored at canvas height, and the inverse maps are exact
algebraic inverses of the forward maps on all of data space. -/
theorem C1_transform_roundtrip (T : Transform)
    (hx : T.xMin < T.xMax) (hy : T.yMin < T.yMax)
    (px py : ℚ)
    (hpx1 : T.padding < px) (hpx2 : px < T.width - T.padding)
    (hpy1 : T.padding < py) (hpy2 : py < T.height - T.padding) :
    mapX T (unmapX T px) = px ∧ mapY T (unmapY T py) = py ∧
    (∀ x, unmapX T (mapX T x) = x) ∧ (∀ y, unmapY T (mapY T y) = y) ∧
    (∀ x, mapX T x =
      T.padding + (x - T.xMin) / (T.xMax - T.xMin) * (T.width - 2 * T.padding)) ∧
    (∀ y, mapY T y =
      T.height - T.padding - (y - T.yMin) / (T.yMax - T.yMin) * (T.height - 2 * T.padding)) := by
  have hxd : T.xMax - T.xMin ≠ 0 := sub_ne_zero.mpr hx.ne'
  have hyd : T.yMax - T.yMin ≠ 0 := sub_ne_zero.mpr hy.ne'
  have hwd : T.width - 2 * T.padding ≠ 0 := by
    have : 0 < T.width - 2 * T.padding := by linarith
    exact this.ne'
  have hhd : T.height - 2 * T.padding ≠ 0 := by
    have : 0 < T.height - 2 * T.padding := by linarith
    exact this.ne'
  refine ⟨?_, ?_, fun x => ?_, fun y => ?_, fun x => rfl, fun y => rfl⟩ <;>
    (simp only [mapX, mapY, unmapX, unmapY]; field_simp; ring)

/-- Witness for C1 at the view `[0,10]×[0,10]`, canvas `100×100`, padding `10`,
screen point `(30,30)`. -/
theorem C1_transform_roundtrip_witness :
    ((0:ℚ) < 10 ∧ (10:ℚ) < 30 ∧ (30:ℚ) < 100 - 10) ∧
    mapX ⟨0, 10, 0, 10, 100, 100, 10⟩ (unmapX ⟨0, 10, 0, 10, 100, 100, 10⟩ 30) = 30 :=
  ⟨⟨by norm_num, by norm_num, by norm_num⟩,
   (C1_transform_roundtrip ⟨0, 10, 0, 10, 100, 100, 10⟩ (by norm_num) (by norm_num)
      30 30 (by norm_num) (by norm_num) (by norm_num) (by norm_num)).1⟩

/-- C3 counterexample: pinch zoom does not keep the data coordinate under the
gesture focal point.  Start view `[0,10]×[0,10]`, canvas `100×100`, padding `0`,
gesture centre at pixel x `10` (data x `1`), scale ratio `2`: after the pinch
the pixel x `10` maps back to data x `-3`, not `1`. -/
theorem C3_zoom_focal_counterexample :
    unmapX (⟨0, 10, 0, 10, 100, 100, 0⟩ : Transform) 10 = 1 ∧
    unmapX (transformOfView (pinchZoomView ⟨0, 10, 0, 10⟩ 2) 100 100 0) 10 = -3 ∧
    unmapX (transformOfView (pinchZoomView ⟨0, 10, 0, 10⟩ 2) 100 100 0) 10 ≠
      unmapX (⟨0, 10, 0, 10, 100, 100, 0⟩ : Transform) 10 := by
  refine ⟨by norm_num [unmapX], by norm_num [unmapX, pinchZoomView, transformOfView], ?_⟩
  norm_num [unmapX, pinchZoomView, transformOfView]

/-- C3 amended: wheel zoom (clamped mode off) preserves the data-space
coordinate under the pointer, and its new minimum is `focal - frac * newRange`;
pinch zoom instead rescales around the view centre, preserving the view-centre
data point but not, in general, the gesture focal point. -/
theorem C3_zoom_focal_amended (T : Transform) (mx my factor : ℚ)
    (hx : T.xMin < T.xMax) (hy : T.yMin < T.yMax) :
    (unmapX (transformOfView (wheelZoomView T mx my factor) T.width T.height T.padding) mx
       = unmapX T mx ∧
     unmapY (transformOfView (wheelZoomView T mx my factor) T.width T.height T.padding) my
       = unmapY T my) ∧
    (wheelZoomView T mx my factor).xMin
      = unmapX T mx - (unmapX T mx - T.xMin) / (T.xMax - T.xMin)
          * ((T.xMax - T.xMin) * factor) ∧
    (∀ s : View, ∀ scale : ℚ,
      ((pinchZoomView s scale).xMin + (pinchZoomView s scale).xMax) / 2
        = (s.xMin + s.xMax) / 2 ∧
      ((pinchZoomView s scale).yMin + (pinchZoomView s scale).yMax) / 2
        = (s.yMin + s.yMax) / 2) := by
  have hxd : T.xMax - T.xMin ≠ 0 := sub_ne_zero.mpr hx.ne'
  have hyd : T.yMax - T.yMin ≠ 0 := sub_ne_zero.mpr hy.ne'
  refine ⟨⟨?_, ?_⟩, rfl, fun s scale => ⟨?_, ?_⟩⟩
  · simp only [wheelZoomView, transformOfView, unmapX]
    generalize (mx - T.padding) / (T.width - 2 * T.padding) = s
    field_simp
  · simp only [wheelZoomView, transformOfView, unmapY]
    generalize (T.height - T.padding - my) / (T.height - 2 * T.padding) = s
    field_simp
  · simp only [pinchZoomView]
    ring
  · simp only [pinchZoomView]
    ring

/-- Witness for the amended C3 at the view `[0,10]×[0,10]`, canvas `100×100`,
padding `0`, pointer `(10,90)`, zoom factor `21/20`. -/
theorem C3_zoom_focal_amended_witness :
    ((0:ℚ) < 10) ∧
    unmapX (transformOfView (wheelZoomView ⟨0, 10, 0, 10, 100, 100, 0⟩ 10 90 (21/20))
        100 100 0) 10
      = unmapX (⟨0, 10, 0, 10, 100, 100, 0⟩ : Transform) 10 :=
  ⟨by norm_num,
   (C3_zoom_focal_amended ⟨0, 10, 0, 10, 100, 100, 0⟩ 10 90 (21/20)
      (by norm_num) (by norm_num)).1.1⟩

/-- Clamping to `[0,1]` minimises the squared distance to `t0` over `[0,1]`. -/
theorem clamp_sq_le (t0 c : ℝ) (hc0 : 0 ≤ c) (hc1 : c ≤ 1) :
    (max 0 (min 1 t0) - t0) ^ 2 ≤ (c - t0) ^ 2 := by
  rcases le_total t0 0 with h | h
  · rw [min_eq_right (h.trans zero_le_one), max_eq_left h]
    nlinarith
  · rcases le_total 1 t0 with h1 | h1
    · rw [min_eq_left h1, max_eq_right (zero_le_one (α := ℝ))]
      nlinarith
    · rw [min_eq_right h1, max_eq_right h]
      simpa using sq_nonneg (c - t0)

/-- C10: the projection helper is total and correct: the returned point lies
on the closed segment (some clamped parameter `t ∈ [0,1]` realises it, also
for the degenerate zero-length segment), the returned `dist` is the Euclidean
distance from the query point to the returned point, and that distance is
minimal among the distances to all points of the segment (every such point
being `(x1,y1) + clamp(u)·(dx,dy)` for some `u`). -/
theorem C10_project_point_on_segment (px py x1 y1 x2 y2 : ℝ) :
    (∃ t ∈ Set.Icc (0:ℝ) 1,
      (projectPointOnSegment px py x1 y1 x2 y2).x = x1 + t * (x2 - x1) ∧
      (projectPointOnSegment px py x1 y1 x2 y2).y = y1 + t * (y2 - y1)) ∧
    (projectPointOnSegment px py x1 y1 x2 y2).dist
      = Real.sqrt ((px - (projectPointOnSegment px py x1 y1 x2 y2).x) ^ 2
          + (py - (projectPointOnSegment px py x1 y1 x2 y2).y) ^ 2) ∧
    ∀ u : ℝ,
      (projectPointOnSegment px py x1 y1 x2 y2).dist
        ≤ Real.sqrt ((px - (x1 + max 0 (min 1 u) * (x2 - x1))) ^ 2
            + (py - (y1 + max 0 (min 1 u) * (y2 - y1))) ^ 2) := by
  by_cases hl2 : (x2 - x1) ^ 2 + (y2 - y1) ^ 2 = 0
  · have hx2 : (x2 - x1) ^ 2 = 0 :=
      le_antisymm (by nlinarith [sq_nonneg (y2 - y1)]) (sq_nonneg _)
    have hy2 : (y2 - y1) ^ 2 = 0 :=
      le_antisymm (by nlinarith [sq_nonneg (x2 - x1)]) (sq_nonneg _)
    have hdx : x2 - x1 = 0 := by
      have := sq_nonneg (x2 - x1)
      nlinarith
    have hdy : y2 - y1 = 0 := by
      have := sq_nonneg (y2 - y1)
      nlinarith
    simp only [projectPointOnSegment]
    rw [if_pos hl2]
    refine ⟨⟨0, ⟨le_refl 0, zero_le_one⟩, by ring, by ring⟩, rfl, fun u => ?_⟩
    rw [hdx, hdy]
    simp
  · have hl2pos : 0 < (x2 - x1) ^ 2 + (y2 - y1) ^ 2 :=
      lt_of_le_of_ne (by positivity) (Ne.symm hl2)
    simp only [projectPointOnSegment]
    rw [if_neg hl2]
    refine ⟨⟨max 0 (min 1 (((px - x1) * (x2 - x1) + (py - y1) * (y2 - y1))
        / ((x2 - x1) ^ 2 + (y2 - y1) ^ 2))),
      ⟨le_max_left _ _, max_le zero_le_one (min_le_left _ _)⟩, rfl, rfl⟩,
      rfl, fun u => ?_⟩
    apply Real.sqrt_le_sqrt
    have hkey : ∀ s : ℝ,
        (px - (x1 + s * (x2 - x1))) ^ 2 + (py - (y1 + s * (y2 - y1))) ^ 2
          = ((x2 - x1) ^ 2 + (y2 - y1) ^ 2)
              * (s - ((px - x1) * (x2 - x1) + (py - y1) * (y2 - y1))
                  / ((x2 - x1) ^ 2 + (y2 - y1) ^ 2)) ^ 2
            + ((px - x1) ^ 2 + (py - y1) ^ 2
              - (((px - x1) * (x2 - x1) + (py - y1) * (y2 - y1))
                  / ((x2 - x1) ^ 2 + (y2 - y1) ^ 2)) ^ 2
                * ((x2 - x1) ^ 2 + (y2 - y1) ^ 2)) := by
      intro s
      field_simp
      ring
    rw [hkey, hkey]
    have hcl := clamp_sq_le (((px - x1) * (x2 - x1) + (py - y1) * (y2 - y1))
        / ((x2 - x1) ^ 2 + (y2 - y1) ^ 2)) (max 0 (min 1 u))
      (le_max_left _ _) (max_le zero_le_one (min_le_left _ _))
    nlinarith [hcl, hl2pos]

/-- C4: at the base case, a valid/valid pair around an invalid midpoint with a
pixel jump of `70` is bridged into the current run even though `70` is not
below the tighter `50`-pixel bridge threshold: the `jump < 100` branch of
Case 1 fires, and the base case never distinguishes an invalid midpoint from a
valid one — the tighter-threshold Case 2 of the source is unreachable. -/
theorem C4_bridge_threshold :
    (emitBase 0 0 2 70 true true false ⟨false, []⟩
        = ⟨true, [(0, 0, 2, 70)]⟩ ∧
      ¬ ((70 : ℚ) < 50) ∧ ((70 : ℚ) < 100)) ∧
    ∀ p1X p1Y p2X p2Y : ℚ, ∀ st : SamplerState,
      emitBase p1X p1Y p2X p2Y true true false st
        = emitBase p1X p1Y p2X p2Y true true true st := by
  refine ⟨⟨by decide, by norm_num, by norm_num⟩, fun p1X p1Y p2X p2Y st => ?_⟩
  simp [emitBase]

set_option maxRecDepth 100000 in
set_option maxHeartbeats 4000000 in
/-- C5: cells with corner code 0 or 15 emit no segment, the saddle codes 5
and 10 each emit exactly two segments, and on the fixed `60×60` grid over
`[-10,10]×[-10,10]` every endpoint of every segment emitted for
`x^2 + y^2 - 25` lies within `1/100` of distance `5` from the origin. -/
theorem C5_marching_squares :
    (∀ v0 v1 v2 v3 xl yb dx dy : ℚ,
      (cellCode v0 v1 v2 v3 = 0 ∨ cellCode v0 v1 v2 v3 = 15) →
        cellSegs v0 v1 v2 v3 xl yb dx dy = []) ∧
    (∀ v0 v1 v2 v3 xl yb dx dy : ℚ, cellCode v0 v1 v2 v3 = 5 →
        (cellSegs v0 v1 v2 v3 xl yb dx dy).length = 2) ∧
    (∀ v0 v1 v2 v3 xl yb dx dy : ℚ, cellCode v0 v1 v2 v3 = 10 →
        (cellSegs v0 v1 v2 v3 xl yb dx dy).length = 2) ∧
    circleCheck = true := by
  refine ⟨fun v0 v1 v2 v3 xl yb dx dy h => ?_,
    fun v0 v1 v2 v3 xl yb dx dy h => ?_,
    fun v0 v1 v2 v3 xl yb dx dy h => ?_, by decide⟩
  · rcases h with h | h <;> simp [cellSegs, h]
  · simp [cellSegs, h]
  · simp [cellSegs, h]

/-- Witness for C5: an all-negative cell has code 0 and emits nothing. -/
theorem C5_marching_squares_witness :
    (cellCode (-1) (-1) (-1) (-1) = 0 ∨ cellCode (-1) (-1) (-1) (-1) = 15) ∧
    cellSegs (-1) (-1) (-1) (-1) 0 0 1 1 = [] :=
  ⟨Or.inl (by decide),
   C5_marching_squares.1 (-1) (-1) (-1) (-1) 0 0 1 1 (Or.inl (by decide))⟩

/-- C7 counterexample: with both endpoints invalid and the midpoint valid the
source's recursion criteria fire, while the claim's "exactly when" list of
cases does not cover this situation. -/
theorem C7_split_criteria_counterexample :
    splitDecision false false true 0 0 0 100 = true ∧
    specSplitCriteria false false true 0 0 0 100 = false := by
  decide

/-- C7 amended: the sampler bisects exactly when the claim's four cases fire
— validity differing, valid endpoints around an invalid midpoint, a curvature
error above `TOLERANCE = 0.2`, or a pixel jump exceeding the canvas height —
or additionally when both endpoints are invalid but the midpoint is valid;
and past `MAX_DEPTH = 8` no further bisection happens: `plotSegment` at any
depth `≥ 8` coincides with `plotSegment` at depth `8`. -/
theorem C7_split_criteria_amended :
    (∀ (v1 v2 vm : Bool) (p1Y p2Y pmY height : ℚ),
      splitDecision v1 v2 vm p1Y p2Y pmY height
        = (specSplitCriteria v1 v2 vm p1Y p2Y pmY height || (!v1 && !v2 && vm))) ∧
    ∀ (f : ℚ → Option ℚ) (domain : Option (ℚ × ℚ)) (T : Transform)
      (x1 : ℚ) (y1 : Option ℚ) (x2 : ℚ) (y2 : Option ℚ)
      (st : SamplerState) (depth : Nat), MAX_DEPTH ≤ depth →
      plotSegment f domain T x1 y1 x2 y2 depth st
        = plotSegment f domain T x1 y1 x2 y2 MAX_DEPTH st := by
  constructor
  · intro v1 v2 vm p1Y p2Y pmY height
    cases v1 <;> cases v2 <;> cases vm <;>
      simp [splitDecision, specSplitCriteria]
  · intro f domain T x1 y1 x2 y2 st depth hd
    have h1 : ¬ depth < MAX_DEPTH := by omega
    have h2 : ¬ MAX_DEPTH < MAX_DEPTH := lt_irrefl _
    rw [plotSegment]
    rw [dif_neg h1]
    rw [plotSegment]
    rw [dif_neg h2]

/-- Witness for the amended C7 at depth `9` with the identity sample function
on the unit view. -/
theorem C7_split_criteria_amended_witness :
    MAX_DEPTH ≤ 9 ∧
    plotSegment (fun x => some x) none ⟨0, 10, 0, 10, 100, 100, 0⟩
        0 (some 0) 1 (some 1) 9 ⟨false, []⟩
      = plotSegment (fun x => some x) none ⟨0, 10, 0, 10, 100, 100, 0⟩
        0 (some 0) 1 (some 1) MAX_DEPTH ⟨false, []⟩ :=
  ⟨by decide,
   C7_split_criteria_amended.2 (fun x => some x) none ⟨0, 10, 0, 10, 100, 100, 0⟩
     0 (some 0) 1 (some 1) ⟨false, []⟩ 9 (by decide)⟩

theorem takeUntilEq_append (l r : List Char) (h : '=' ∉ l) :
    takeUntilEq (l ++ '=' :: r) = l := by
  induction l with
  | nil => simp [takeUntilEq]
  | cons c l ih =>
    have hc : ¬ c = '=' := fun hc => h (hc ▸ List.mem_cons_self c l)
    simp only [List.cons_append, takeUntilEq, if_neg hc]
    exact congrArg (List.cons c) (ih (fun hm => h (List.mem_cons_of_mem c hm)))

theorem takeUntilEq_no_eq (l : List Char) (h : '=' ∉ l) : takeUntilEq l = l := by
  induction l with
  | nil => rfl
  | cons c l ih =>
    have hc : ¬ c = '=' := fun hc => h (hc ▸ List.mem_cons_self c l)
    simp only [takeUntilEq, if_neg hc]
    exact congrArg (List.cons c) (ih (fun hm => h (List.mem_cons_of_mem c hm)))

theorem dropPastEq_append (l r : List Char) (h : '=' ∉ l) :
    dropPastEq (l ++ '=' :: r) = some r := by
  induction l with
  | nil => simp [dropPastEq]
  | cons c l ih =>
    have hc : ¬ c = '=' := fun hc => h (hc ▸ List.mem_cons_self c l)
    simp only [List.cons_append, dropPastEq, if_neg hc]
    exact ih (fun hm => h (List.mem_cons_of_mem c hm))

/-- C6: the rewriter applies its rules in the spec order — parameter
implicit-multiplication insertion strictly before parameter value
substitution, equation normalization strictly last — and normalization turns
any `lhs = rhs` (with `=`-free sides) into `(lhs) - (rhs)`; concrete runs:
with parameter `a = 2`, `"ax"` becomes `"(2)*x"`, and `"x^2+y^2=25"` becomes
`"(x**2+y**2) - (25)"`. -/
theorem C6_makeFn_pipeline :
    (∀ (params : List (List Char × List Char)) (s : List Char),
      makeFn params s
        = eqNormalize (replaceWords eTable (replaceWords piTable (replaceWords mathFnTable
            (caretExpand (negPow (parenMult (digitMult
              (substParams params (paramImplicitMult params s)))))))))) ∧
    (∀ l r : List Char, '=' ∉ l → '=' ∉ r →
      eqNormalize (l ++ '=' :: r)
        = '(' :: l ++ ')' :: ' ' :: '-' :: ' ' :: '(' :: (r ++ [')'])) ∧
    makeFn [("a".toList, "2".toList)] "ax".toList = "(2)*x".toList ∧
    makeFn [] "x^2+y^2=25".toList = "(x**2+y**2) - (25)".toList := by
  refine ⟨fun params s => rfl, fun l r h1 h2 => ?_, by decide, by decide⟩
  simp only [eqNormalize]
  rw [dropPastEq_append l r h1]
  simp only []
  rw [takeUntilEq_append l r h1, takeUntilEq_no_eq r h2]

/-- Witness for C6 at `lhs = "x"`, `rhs = "1"`. -/
theorem C6_makeFn_pipeline_witness :
    ('=' ∉ "x".toList ∧ '=' ∉ "1".toList) ∧
    eqNormalize ("x".toList ++ '=' :: "1".toList)
      = '(' :: "x".toList ++ ')' :: ' ' :: '-' :: ' ' :: '(' :: ("1".toList ++ [')']) :=
  ⟨⟨by decide, by decide⟩, C6_makeFn_pipeline.2.1 _ _ (by decide) (by decide)⟩

theorem mem_addWarning_self (l : List String) (w : String) : w ∈ addWarning l w := by
  by_cases h : w ∈ l <;> simp [addWarning, h]

theorem mem_addWarning_of_mem (l : List String) (w v : String) (h : v ∈ l) :
    v ∈ addWarning l w := by
  by_cases hw : w ∈ l <;> simp [addWarning, hw, h]

theorem mem_foldl_addWarning_of_mem (msgs : List String) (l : List String) (m : String)
    (h : m ∈ l) : m ∈ msgs.foldl addWarning l := by
  induction msgs generalizing l with
  | nil => exact h
  | cons x rest ih => exact ih _ (mem_addWarning_of_mem l x m h)

theorem mem_foldl_addWarning (msgs : List String) (l : List String) (m : String)
    (h : m ∈ msgs) : m ∈ msgs.foldl addWarning l := by
  induction msgs generalizing l with
  | nil => cases h
  | cons x rest ih =>
    rcases List.mem_cons.mp h with h | h
    · subst h
      exact mem_foldl_addWarning_of_mem rest _ _ (mem_addWarning_self l m)
    · exact ih _ h

theorem foldl_addWarning_of_mem (msgs : List String) (l : List String)
    (h : ∀ m ∈ msgs, m ∈ l) : msgs.foldl addWarning l = l := by
  induction msgs with
  | nil => rfl
  | cons x rest ih =>
    have hx : addWarning l x = l := by simp [addWarning, h x (List.mem_cons_self x rest)]
    simp only [List.foldl_cons, hx]
    exact ih fun m hm => h m (List.mem_cons_of_mem x hm)

/-- C2: the per-item `try`/`catch` boundary isolates a failing function item
— it is skipped with a warning and its sibling still renders — but it does
not extend to implicit items: an implicit item whose expression throws
escapes the loop as an uncaught exception and aborts the draw, so the sibling
function item after it never renders. -/
theorem C2_implicit_error_aborts_draw :
    drawItems [.fnItem false, .fnItem true] [] []
      = .ok ([false, true], ["Error rendering function"]) ∧
    drawItems [.implicitItem false, .fnItem true] [] [] = .error "SyntaxError" := by
  constructor <;> rfl

/-- C8: appending an already-present warning leaves `this.warnings`
unchanged, and a second `draw()` with the same configuration, renderer and
state reproduces the first one exactly — same scene, same cache, same view,
same warning list. -/
theorem C8_draw_idempotent :
    (∀ (l : List String) (w : String), w ∈ l → addWarning l w = l) ∧
    ∀ (α : Type) (cfg : Config) (render : Config → View → RenderOut α)
      (s : DrawState α),
      drawPass cfg render (drawPass cfg render s) = drawPass cfg render s := by
  constructor
  · intro l w h
    simp [addWarning, h]
  · intro α cfg render s
    simp only [drawPass, resolveBounds]
    refine congrArg _ ?_
    exact foldl_addWarning_of_mem _ _ fun m hm => mem_foldl_addWarning _ _ _ hm

/-- Witness for C8: re-adding a present warning is a no-op. -/
theorem C8_draw_idempotent_witness :
    ("w" ∈ ["w"] ∧ addWarning ["w"] "w" = ["w"]) :=
  ⟨by decide, C8_draw_idempotent.1 ["w"] "w" (by decide)⟩

/-- C9: the geometry cache after a draw is exactly the renderer's fresh cache
for the resolved bounds — independent of whatever the cache held before, so
no entry of a previous draw survives. -/
theorem C9_plot_data_replaced :
    ∀ (α : Type) (cfg : Config) (render : Config → View → RenderOut α)
      (s : DrawState α) (old : List α),
      (drawPass cfg render { s with plotData := old }).plotData
        = (render cfg (resolveBounds cfg s.view)).cache := by
  intro α cfg render s old
  rfl

end Plotter
